import Mathlib

/-!
Verification of the PeerDB ClickHouse CDC normalization engine
(`flow/connectors/clickhouse/normalize.go`, provided as `src/unnamed/part_003`).

The Go code is shallowly embedded: SQL statements built through `strings.Builder`
are represented as the list of fragments passed to the successive `WriteString`
calls (the produced statement is `String.join` of that list); effectful calls
(catalog reads, Avro stage copies, destination queries, env lookups,
`ToDWHColumnType`) are oracles passed in as `Except`-valued inputs; the
`NormalizeRecords` entry point is a function from an oracle environment and the
catalog state to a result, the new catalog state, and a trace of observable
events.  Go `int64` values are modelled as `Int`; wraparound is made explicit
(`wrapInt64`) in the one place a claim depends on machine arithmetic, the
tombstone version `_peerdb_timestamp - 1` computed by ClickHouse in `Int64`.
-/

/-- Column name of the soft-delete sign column (`signColName`, part_003:25). -/
def signColName : String := "_peerdb_is_deleted"

/-- Physical type of the sign column (`signColType`, part_003:26). -/
def signColType : String := "Int8"

/-- Column name of the version column (`versionColName`, part_003:27). -/
def versionColName : String := "_peerdb_version"

/-- Physical type of the version column (`versionColType`, part_003:28). -/
def versionColType : String := "Int64"

/-- One column of a source table schema (`protos.FieldDescription`: the fields
of `tableSchema.Columns` read by part_003 are `Name` and `Type`). -/
structure FieldDescription where
  name : String
  type : String
deriving Repr, DecidableEq, Inhabited

/-- Source table schema (`protos.TableSchema`: the fields read by part_003 are
`Columns`, `PrimaryKeyColumns` and `NullableEnabled`). -/
structure TableSchema where
  columns : List FieldDescription
  primaryKeyColumns : List String
  nullableEnabled : Bool
deriving Repr, DecidableEq, Inhabited

/-- Modelled from the spec: the `protos.TableEngine` enum (generated protobuf
code, not under src/); part_003 only compares against
`TableEngine_CH_ENGINE_MERGE_TREE`, all other values select the replacing
engine. -/
inductive TableEngine where
  | chEngineReplacingMergeTree
  | chEngineMergeTree
  | chEngineNull
deriving Repr, DecidableEq, Inhabited

/-- Per-column mapping settings (`protos.ColumnSetting`: the fields read by
part_003 are `SourceName`, `DestinationName`, `DestinationType`, `Ordering`
and `NullableEnabled`; `Ordering` is a proto `uint32`). -/
structure ColumnSetting where
  sourceName : String
  destinationName : String
  destinationType : String
  ordering : Nat
  nullableEnabled : Bool
deriving Repr, DecidableEq, Inhabited

/-- Table mapping (`protos.TableMapping`: fields read by part_003 are
`DestinationTableIdentifier`, `Columns` and `Engine`). -/
structure TableMapping where
  destinationTableIdentifier : String
  columns : List ColumnSetting
  engine : TableEngine
deriving Repr, DecidableEq, Inhabited

/-- Input of `SetupNormalizedTable` (`protos.SetupNormalizedTableBatchInput`:
fields read by part_003 are `TableMappings`, `IsResync` and `SyncedAtColName`).
The env map is folded into the oracles. -/
structure SetupNormalizedTableBatchInput where
  tableMappings : List TableMapping
  isResync : Bool
  syncedAtColName : String
deriving Repr, DecidableEq, Inhabited

/-- Modelled from the spec: `peerdb_clickhouse.QuoteIdentifier` (package
`flow/shared/clickhouse`, not under src/) — the destination client's
`QuoteIdentifier` capability (spec section 9), ClickHouse backtick quoting.
No claim depends on the escaping of embedded backticks, so none is modelled. -/
def QuoteIdentifier (s : String) : String := "`" ++ s ++ "`"

/-- Modelled from the spec: `peerdb_clickhouse.EscapeStr` (package
`flow/shared/clickhouse`, not under src/) escapes a string for embedding in a
single-quoted ClickHouse literal; modelled as escaping backslash and quote. -/
def EscapeStr (s : String) : String :=
  String.mk (s.data.foldr (fun c acc => if c = '\'' ∨ c = '\\' then '\\' :: c :: acc else c :: acc) [])

/-- Modelled from the spec: `qvalue.QValueKindBytes` (package
`flow/model/qvalue`, not under src/); `QValueKind` is a string type and
part_003 only tests a column's kind for equality with this constant
(the `bytes` logical type of spec section 4.2). -/
def QValueKindBytes : String := "bytes"

/-- Modelled from the spec: `internal.BinaryFormat` (package `flow/internal`,
not under src/); spec section 6: `BinaryFormat ∈ {raw, hex}`. -/
inductive BinaryFormat where
  | raw
  | hex
deriving Repr, DecidableEq, Inhabited

/-- Override lookup `getColName` (part_003:74-79): the destination name from
the rename map when present, the source name otherwise.  The Go
`map[string]string` is modelled as an association list with distinct keys
(one entry per schema column). -/
def getColName (overrides : List (String × String)) (name : String) : String :=
  match overrides.lookup name with
  | some newName => newName
  | none => name

/-- Stable insertion of a column setting into a list sorted by `Ordering`
ascending; the inserted element goes after strictly smaller orderings and
before equal ones it follows in the original list. -/
def insertByOrdering (c : ColumnSetting) : List ColumnSetting → List ColumnSetting
  | [] => [c]
  | d :: ds => if d.ordering < c.ordering then d :: insertByOrdering c ds else c :: d :: ds

/-- Stable sort by ascending `Ordering` (`slices.SortStableFunc` with
`cmp.Compare(a.Ordering, b.Ordering)`, part_003:221-223). -/
def sortByOrdering : List ColumnSetting → List ColumnSetting
  | [] => []
  | c :: cs => insertByOrdering c (sortByOrdering cs)

/-- Ordering / primary key column computation `getOrderedOrderByColumns`
(part_003:189-231): the columns with `Ordering > 0` sorted ascending (renamed
and quoted), or the (renamed, quoted) source primary keys when none exist. -/
def getOrderedOrderByColumns (tableMapping : Option TableMapping)
    (sourcePkeys : List String) (colNameMap : List (String × String)) : List String :=
  let pkeys :=
    if 0 < sourcePkeys.length ∧ 0 < colNameMap.length then
      sourcePkeys.map (fun pk => QuoteIdentifier (getColName colNameMap pk))
    else
      sourcePkeys.map QuoteIdentifier
  let orderby : List ColumnSetting :=
    match tableMapping with
    | some tm => tm.columns.filter (fun col => 0 < col.ordering)
    | none => []
  if orderby.isEmpty then
    pkeys
  else
    (sortByOrdering orderby).map (fun col => QuoteIdentifier (getColName colNameMap col.sourceName))

/-- Per-column resolution shared by the DDL and normalize paths
(part_003:109-129 and 343-364): the first mapping entry whose `SourceName`
matches the column. -/
def findColumnSetting (tableMapping : Option TableMapping) (colName : String) :
    Option ColumnSetting :=
  match tableMapping with
  | some tm => tm.columns.find? (fun col => col.sourceName == colName)
  | none => none

/-- Destination column name after rename (part_003:117-121 / 352-355). -/
def resolveDstColName (tableMapping : Option TableMapping) (colName : String) : String :=
  match findColumnSetting tableMapping colName with
  | some s => if s.destinationName ≠ "" then s.destinationName else colName
  | none => colName

/-- Destination type override (part_003:122-124 / 356-359): empty when absent. -/
def resolveTypeOverride (tableMapping : Option TableMapping) (colName : String) : String :=
  match findColumnSetting tableMapping colName with
  | some s => s.destinationType
  | none => ""

/-- Per-column nullable flag (part_003:125 / 360). -/
def resolveColumnNullable (tableMapping : Option TableMapping) (colName : String) : Bool :=
  match findColumnSetting tableMapping colName with
  | some s => s.nullableEnabled
  | none => false

/-- Resolved physical column type (part_003:131-139 / 367-376): the mapping's
`DestinationType` when nonempty, otherwise `ToDWHColumnType` (that function
lives outside src/ and is an oracle `toDWH` here, taking the column and the
effective nullability flag). -/
def resolveClickHouseType (toDWH : FieldDescription → Bool → Except String String)
    (tableMapping : Option TableMapping) (schemaNullable : Bool)
    (column : FieldDescription) : Except String String :=
  let override := resolveTypeOverride tableMapping column.name
  if override ≠ "" then Except.ok override
  else toDWH column (schemaNullable || resolveColumnNullable tableMapping column.name)

/-- Column definition loop of `generateCreateTableSQLForNormalizedTable`
(part_003:108-142): returns the per-column DDL fragments (one per
`WriteString`) and the rename map `colNameMap` accumulated along the way. -/
def ddlColumnLoop (toDWH : FieldDescription → Bool → Except String String)
    (tableMapping : Option TableMapping) (schemaNullable : Bool) :
    List FieldDescription → Except String (List String × List (String × String))
  | [] => Except.ok ([], [])
  | column :: rest =>
    match resolveClickHouseType toDWH tableMapping schemaNullable column with
    | Except.error e =>
        Except.error ("error while converting column type to ClickHouse type: " ++ e)
    | Except.ok clickHouseType =>
      match ddlColumnLoop toDWH tableMapping schemaNullable rest with
      | Except.error e => Except.error e
      | Except.ok (frags, colNameMap) =>
        let dstColName := resolveDstColName tableMapping column.name
        let entry :=
          match findColumnSetting tableMapping column.name with
          | some s => if s.destinationName ≠ "" then [(column.name, s.destinationName)] else []
          | none => []
        Except.ok (("`" ++ dstColName ++ "` " ++ clickHouseType ++ ", ") :: frags,
                   entry ++ colNameMap)

/-- DDL generation `generateCreateTableSQLForNormalizedTable`
(part_003:81-187), as the list of fragments written to `stmtBuilder`.
`peerdbNullable` is the oracle for `internal.PeerDBNullable` (outside src/). -/
def generateCreateTableSQLForNormalizedTable
    (toDWH : FieldDescription → Bool → Except String String)
    (peerdbNullable : Except String Bool)
    (config : SetupNormalizedTableBatchInput)
    (tableIdentifier : String)
    (tableSchema : TableSchema) : Except String (List String) :=
  let tableMapping :=
    config.tableMappings.find? (fun tm => tm.destinationTableIdentifier == tableIdentifier)
  match ddlColumnLoop toDWH tableMapping tableSchema.nullableEnabled tableSchema.columns with
  | Except.error e => Except.error e
  | Except.ok (colFrags, colNameMap) =>
    match peerdbNullable with
    | Except.error e => Except.error e
    | Except.ok nullable =>
      let syncedFrags :=
        if config.syncedAtColName ≠ "" then
          ["`" ++ config.syncedAtColName.toLower ++ "` DateTime64(9) DEFAULT now64(), "]
        else []
      let engine :=
        match tableMapping with
        | none => "ReplacingMergeTree(`" ++ versionColName ++ "`)"
        | some tm =>
          if tm.engine = TableEngine.chEngineMergeTree then "MergeTree()"
          else "ReplacingMergeTree(`" ++ versionColName ++ "`)"
      let orderByColumns :=
        getOrderedOrderByColumns tableMapping tableSchema.primaryKeyColumns colNameMap
      let orderByFrags :=
        if 0 < orderByColumns.length then
          let orderByStr := String.intercalate "," orderByColumns
          ["PRIMARY KEY (", orderByStr, ") ", "ORDER BY (", orderByStr, ") "]
        else ["ORDER BY tuple()"]
      let settingsFrags := if nullable then [" SETTINGS allow_nullable_key = 1"] else []
      Except.ok (["CREATE "]
        ++ (if config.isResync then ["OR REPLACE "] else [])
        ++ ["TABLE "]
        ++ (if !config.isResync then ["IF NOT EXISTS "] else [])
        ++ ["`", tableIdentifier, "` ("]
        ++ colFrags ++ syncedFrags
        ++ ["`" ++ signColName ++ "` " ++ signColType ++ ", `" ++ versionColName ++ "` "
              ++ versionColType ++ ") ENGINE = " ++ engine]
        ++ orderByFrags ++ settingsFrags)

/-- Entry point `SetupNormalizedTable` (part_003:42-72). `checkIfTableExists`
is the oracle for `c.checkIfTableExists` and `execDDL` for `c.execWithLogging`
(both effectful methods outside this file's scope); the returned list records
the DDL statements executed. -/
def SetupNormalizedTable
    (checkIfTableExists : Except String Bool)
    (toDWH : FieldDescription → Bool → Except String String)
    (peerdbNullable : Except String Bool)
    (execDDL : String → Except String Unit)
    (config : SetupNormalizedTableBatchInput)
    (tableIdentifier : String)
    (tableSchema : TableSchema) : Except String (Bool × List String) :=
  match checkIfTableExists with
  | Except.error e =>
      Except.error ("error occurred while checking if normalized table exists: " ++ e)
  | Except.ok tableAlreadyExists =>
    if tableAlreadyExists && !config.isResync then
      Except.ok (true, [])
    else
      match generateCreateTableSQLForNormalizedTable toDWH peerdbNullable config
          tableIdentifier tableSchema with
      | Except.error e =>
          Except.error ("error while generating create table sql for normalized table: " ++ e)
      | Except.ok frags =>
        match execDDL (String.join frags) with
        | Except.error e =>
            Except.error ("[ch] error while creating normalized table: " ++ e)
        | Except.ok _ => Except.ok (false, [String.join frags])

/-- Per-column normalize projection (part_003:343-446): returns the column
selector fragment, the `_peerdb_data` projection fragments and the
`_peerdb_match_data` projection fragments written for one schema column.
`binaryFormat` is the oracle for `internal.PeerDBBinaryFormat` (outside src/),
consulted only for `bytes` columns, exactly as in the source. -/
def columnProjection (binaryFormat : Except String BinaryFormat)
    (toDWH : FieldDescription → Bool → Except String String)
    (tableMapping : Option TableMapping) (schemaNullable : Bool)
    (enablePrimaryUpdate : Bool) (column : FieldDescription) :
    Except String (String × List String × List String) :=
  match resolveClickHouseType toDWH tableMapping schemaNullable column with
  | Except.error e =>
      Except.error ("error while converting column type to clickhouse type: " ++ e)
  | Except.ok clickHouseType =>
    let colName := column.name
    let dstColName := resolveDstColName tableMapping colName
    let sel := "`" ++ dstColName ++ "`,"
    if clickHouseType = "Date32" ∨ clickHouseType = "Nullable(Date32)" then
      Except.ok (sel,
        ["toDate32(parseDateTime64BestEffortOrNull(JSONExtractString(_peerdb_data, '"
           ++ EscapeStr colName ++ "'),6)) AS `" ++ dstColName ++ "`,"],
        if enablePrimaryUpdate then
          ["toDate32(parseDateTime64BestEffortOrNull(JSONExtractString(_peerdb_match_data, '"
             ++ EscapeStr colName ++ "'),6)) AS `" ++ dstColName ++ "`,"]
        else [])
    else if clickHouseType = "DateTime64(6)" ∨ clickHouseType = "Nullable(DateTime64(6))" then
      Except.ok (sel,
        ["parseDateTime64BestEffortOrNull(JSONExtractString(_peerdb_data, '"
           ++ EscapeStr colName ++ "'),6) AS `" ++ dstColName ++ "`,"],
        if enablePrimaryUpdate then
          ["parseDateTime64BestEffortOrNull(JSONExtractString(_peerdb_match_data, '"
             ++ EscapeStr colName ++ "'),6) AS `" ++ dstColName ++ "`,"]
        else [])
    else if column.type = QValueKindBytes then
      match binaryFormat with
      | Except.error e => Except.error e
      | Except.ok BinaryFormat.raw =>
        Except.ok (sel,
          ["base64Decode(JSONExtractString(_peerdb_data, '"
             ++ EscapeStr colName ++ "')) AS `" ++ dstColName ++ "`,"],
          if enablePrimaryUpdate then
            ["base64Decode(JSONExtractString(_peerdb_match_data, '"
               ++ EscapeStr colName ++ "')) AS `" ++ dstColName ++ "`,"]
          else [])
      | Except.ok BinaryFormat.hex =>
        Except.ok (sel,
          ["hex(base64Decode(JSONExtractString(_peerdb_data, '"
             ++ EscapeStr colName ++ "'))) AS `" ++ dstColName ++ "`,"],
          if enablePrimaryUpdate then
            ["hex(base64Decode(JSONExtractString(_peerdb_match_data, '"
               ++ EscapeStr colName ++ "'))) AS `" ++ dstColName ++ "`,"]
          else [])
    else
      Except.ok (sel,
        ["JSONExtract(_peerdb_data, '" ++ EscapeStr colName ++ "', '"
           ++ clickHouseType ++ "') AS `" ++ dstColName ++ "`,"],
        if enablePrimaryUpdate then
          ["JSONExtract(_peerdb_match_data, '" ++ EscapeStr colName ++ "', '"
             ++ clickHouseType ++ "') AS `" ++ dstColName ++ "`,"]
        else [])

/-- Accumulation of `columnProjection` over all schema columns
(the `for _, column := range schema.Columns` loop, part_003:343-446):
column selector fragments, projection fragments, update projection fragments. -/
def tableProjections (binaryFormat : Except String BinaryFormat)
    (toDWH : FieldDescription → Bool → Except String String)
    (tableMapping : Option TableMapping) (schemaNullable : Bool)
    (enablePrimaryUpdate : Bool) :
    List FieldDescription → Except String (List String × List String × List String)
  | [] => Except.ok ([], [], [])
  | column :: rest =>
    match columnProjection binaryFormat toDWH tableMapping schemaNullable
        enablePrimaryUpdate column with
    | Except.error e => Except.error e
    | Except.ok (sel, projFrags, projUpdateFrags) =>
      match tableProjections binaryFormat toDWH tableMapping schemaNullable
          enablePrimaryUpdate rest with
      | Except.error e => Except.error e
      | Except.ok (sels, ps, pus) =>
        Except.ok (sel :: sels, projFrags ++ ps, projUpdateFrags ++ pus)

/-- Tombstone (`UNION ALL`) branch fragments emitted when `enablePrimaryUpdate`
is set (part_003:471-492), including the sign and version fragments appended
to `projectionUpdate` at lines 473-476. -/
def tombstoneFragments (rawTbl tbl : String) (normBatchID syncBatchID : Int)
    (numParts : Int) (numPart : Nat) (projUpdateFrags : List String) : List String :=
  [" UNION ALL SELECT "] ++ projUpdateFrags
    ++ ["1 AS `" ++ signColName ++ "`,",
        "_peerdb_timestamp - 1 AS `" ++ versionColName ++ "`",
        " FROM ", rawTbl,
        " WHERE _peerdb_match_data != '' AND _peerdb_batch_id > ", toString normBatchID,
        " AND _peerdb_batch_id <= ", toString syncBatchID,
        " AND _peerdb_destination_table_name = '", tbl, "' AND _peerdb_record_type = 1"]
    ++ (if 1 < numParts then
          [" AND cityHash64(_peerdb_uid) % " ++ toString numParts ++ " = " ++ toString numPart]
        else [])

/-- Fragment written unconditionally for the sign column of the main branch
(part_003:449): `_peerdb_is_deleted` is `intDiv(_peerdb_record_type, 2)`. -/
def signProjectionFragment : String :=
  "intDiv(_peerdb_record_type, 2) AS `" ++ signColName ++ "`,"

/-- Select statement fragments for one (table, part) plan (part_003:323-492):
the main branch over `_peerdb_data` followed, when `enablePrimaryUpdate` is
set, by the `UNION ALL` tombstone branch. -/
def selectQueryFragments (rawTbl tbl : String) (normBatchID syncBatchID : Int)
    (enablePrimaryUpdate : Bool) (numParts : Int) (numPart : Nat)
    (projFrags projUpdateFrags : List String) : List String :=
  ["SELECT "] ++ projFrags
    ++ [signProjectionFragment,
        "_peerdb_timestamp AS `" ++ versionColName ++ "`",
        " FROM ", rawTbl,
        " WHERE _peerdb_batch_id > ", toString normBatchID,
        " AND _peerdb_batch_id <= ", toString syncBatchID,
        " AND _peerdb_destination_table_name = '", tbl, "'"]
    ++ (if 1 < numParts then
          [" AND cityHash64(_peerdb_uid) % " ++ toString numParts ++ " = " ++ toString numPart]
        else [])
    ++ (if enablePrimaryUpdate then
          tombstoneFragments rawTbl tbl normBatchID syncBatchID numParts numPart projUpdateFrags
        else [])

/-- Column selector fragments (part_003:327-328, 366, 450-455): the
parenthesized destination column list of the `INSERT`. -/
def colSelectorFragments (sels : List String) : List String :=
  ["("] ++ sels ++ ["`" ++ signColName ++ "`,", versionColName, ") "]

/-- Full `INSERT INTO … SELECT …` fragments for one (table, part) plan
(part_003:494-499). -/
def insertQueryFragments (tbl : String) (selFrags selectFrags : List String) : List String :=
  ["INSERT INTO `", tbl, "` "] ++ colSelectorFragments selFrags ++ selectFrags

/-- One plan of the normalize planner: the query string sent over the
`queries` channel for a given destination table and part index
(part_003:321-510). -/
def buildInsertQueryForTablePart (binaryFormat : Except String BinaryFormat)
    (toDWH : FieldDescription → Bool → Except String String)
    (tableMappings : List TableMapping)
    (tableNameSchemaMapping : List (String × TableSchema))
    (enablePrimaryUpdate : Bool) (numParts : Int)
    (rawTbl : String) (normBatchID syncBatchID : Int)
    (tbl : String) (numPart : Nat) : Except String String :=
  let schema := (tableNameSchemaMapping.lookup tbl).getD default
  let tableMapping := tableMappings.find? (fun tm => tm.destinationTableIdentifier == tbl)
  match tableProjections binaryFormat toDWH tableMapping schema.nullableEnabled
      enablePrimaryUpdate schema.columns with
  | Except.error e => Except.error e
  | Except.ok (sels, ps, pus) =>
    Except.ok (String.join (insertQueryFragments tbl sels
      (selectQueryFragments rawTbl tbl normBatchID syncBatchID enablePrimaryUpdate
        numParts numPart ps pus)))

/-- All plans for one destination table: the inner `for numPart := range
numParts` loop (part_003:322). -/
def buildQueriesForTable (binaryFormat : Except String BinaryFormat)
    (toDWH : FieldDescription → Bool → Except String String)
    (tableMappings : List TableMapping)
    (tableNameSchemaMapping : List (String × TableSchema))
    (enablePrimaryUpdate : Bool) (numParts : Int)
    (rawTbl : String) (normBatchID syncBatchID : Int)
    (tbl : String) : Except String (List String) :=
  (List.range numParts.toNat).mapM
    (buildInsertQueryForTablePart binaryFormat toDWH tableMappings tableNameSchemaMapping
      enablePrimaryUpdate numParts rawTbl normBatchID syncBatchID tbl)

/-- All plans of one invocation: the outer `for _, tbl := range
destinationTableNames` loop (part_003:321). -/
def buildAllQueries (binaryFormat : Except String BinaryFormat)
    (toDWH : FieldDescription → Bool → Except String String)
    (tableMappings : List TableMapping)
    (tableNameSchemaMapping : List (String × TableSchema))
    (enablePrimaryUpdate : Bool) (numParts : Int)
    (rawTbl : String) (normBatchID syncBatchID : Int) :
    List String → Except String (List String)
  | [] => Except.ok []
  | tbl :: rest =>
    match buildQueriesForTable binaryFormat toDWH tableMappings tableNameSchemaMapping
        enablePrimaryUpdate numParts rawTbl normBatchID syncBatchID tbl with
    | Except.error e => Except.error e
    | Except.ok qs =>
      match buildAllQueries binaryFormat toDWH tableMappings tableNameSchemaMapping
          enablePrimaryUpdate numParts rawTbl normBatchID syncBatchID rest with
      | Except.error e => Except.error e
      | Except.ok qss => Except.ok (qs ++ qss)

/-- Raw change record (spec section 3); the fields referenced by the generated
normalize SQL.  The record type is 0 = insert, 1 = update, 2 = delete. -/
structure RawRow where
  uid : String
  timestamp : Int
  destinationTableName : String
  data : String
  matchData : String
  batchId : Int
  recordType : Nat
deriving Repr, DecidableEq, Inhabited

/-- Two's-complement wraparound of an unbounded integer into the `Int64`
range, the arithmetic ClickHouse applies to the `Int64` expression
`_peerdb_timestamp - 1`. -/
def wrapInt64 (x : Int) : Int := (x + 2 ^ 63) % 2 ^ 64 - 2 ^ 63

/-- Smallest `Int64` value. -/
def minInt64 : Int := -(2 ^ 63)

/-- Largest `Int64` value. -/
def maxInt64 : Int := 2 ^ 63 - 1

/-- Partition predicate of the generated SQL (part_003:467-469 and 489-491):
`cityHash64(_peerdb_uid) % numParts = numPart`, appended only when
`numParts > 1`.  `cityHash64` is not part of this repository; it is an
uninterpreted function `hash`. -/
def hashPartitionPred (hash : String → Nat) (numParts numPart : Nat) (uid : String) : Bool :=
  if 1 < numParts then hash uid % numParts == numPart else true

/-- Row-selection predicate of the main branch `WHERE` clause
(part_003:460-469): `_peerdb_batch_id > norm AND _peerdb_batch_id <= sync AND
_peerdb_destination_table_name = tbl` plus the partition predicate. -/
def mainBranchSelects (hash : String → Nat) (normBatchID syncBatchID : Int)
    (tbl : String) (numParts numPart : Nat) (r : RawRow) : Bool :=
  decide (normBatchID < r.batchId) && decide (r.batchId ≤ syncBatchID)
    && (r.destinationTableName == tbl) && hashPartitionPred hash numParts numPart r.uid

/-- Row-selection predicate of the tombstone branch `WHERE` clause
(part_003:482-491): `_peerdb_match_data != '' AND _peerdb_batch_id > norm AND
_peerdb_batch_id <= sync AND _peerdb_destination_table_name = tbl AND
_peerdb_record_type = 1` plus the partition predicate. -/
def tombstoneBranchSelects (hash : String → Nat) (normBatchID syncBatchID : Int)
    (tbl : String) (numParts numPart : Nat) (r : RawRow) : Bool :=
  (r.matchData != "") && decide (normBatchID < r.batchId) && decide (r.batchId ≤ syncBatchID)
    && (r.destinationTableName == tbl) && (r.recordType == 1)
    && hashPartitionPred hash numParts numPart r.uid

/-- Value of `_peerdb_is_deleted` projected by the main branch
(part_003:448-449): `intDiv(_peerdb_record_type, 2)`. -/
def mainBranchSign (r : RawRow) : Nat := r.recordType / 2

/-- Value of `_peerdb_version` projected by the main branch (part_003:452-453):
`_peerdb_timestamp`. -/
def mainBranchVersion (r : RawRow) : Int := r.timestamp

/-- Value of `_peerdb_is_deleted` projected by the tombstone branch
(part_003:473): the literal 1. -/
def tombstoneSign : Nat := 1

/-- Value of `_peerdb_version` projected by the tombstone branch
(part_003:474-476): the `Int64` expression `_peerdb_timestamp - 1`. -/
def tombstoneVersion (r : RawRow) : Int := wrapInt64 (r.timestamp - 1)

/-- Observable events of one `NormalizeRecords` invocation. -/
inductive NormalizeEvent where
  | copyStage (batchId : Int)
  | queryDistinctTables
  | spawnWorker (index : Nat) (usesShared : Bool)
  | execInsert (query : String)
  | updateBatchId (value : Int)
deriving Repr, DecidableEq

/-- Catalog state relevant to normalization: the flow's
`last_normalize_batch_id` pointer (spec section 3). -/
structure Catalog where
  lastNormalizeBatchID : Int
deriving Repr, DecidableEq

/-- Request of `NormalizeRecords` (`model.NormalizeRecordsRequest`: the fields
read by part_003 are `FlowJobName`, `SyncBatchID`, `TableNameSchemaMapping`,
`TableMappings` and `Env`; the env map is folded into the oracles). -/
structure NormalizeRecordsRequest where
  flowJobName : String
  syncBatchID : Int
  tableNameSchemaMapping : List (String × TableSchema)
  tableMappings : List TableMapping
deriving Inhabited

/-- Response of `NormalizeRecords` (`model.NormalizeResponse`). -/
structure NormalizeResponse where
  startBatchID : Int
  endBatchID : Int
deriving Repr, DecidableEq

/-- Oracle environment of one `NormalizeRecords` invocation: each effectful
collaborator of part_003 appears as an `Except`-valued input.  A `ctx`
cancellation during query execution surfaces as an `execQuery` error, exactly
as the cancelled branch at part_003:503-508 returns an error. -/
structure NormalizeEnv where
  getLastNormalizeBatchIDErr : Option String
  copyStage : Int → Except String Unit
  rawDistinctTables : Except String (List (Option String))
  enablePrimaryUpdate : Except String Bool
  parallelNormalizeCfg : Except String Int
  numPartsCfg : Except String Int
  binaryFormat : Except String BinaryFormat
  toDWH : FieldDescription → Bool → Except String String
  execQuery : String → Except String Unit
  updateErr : Option String

/-- Modelled from the spec: `c.getRawTableName` (not under src/) — the
per-flow raw table name (spec sections 3 and 4.7: one raw table per flow). -/
def getRawTableName (flowJobName : String) : String :=
  "_peerdb_raw_" ++ flowJobName

/-- Stage-copy loop body counted by remaining batches: copies stages for
`s, s+1, …` (`copyAvroStagesToDestination`, part_003:590-599; each iteration
is `copyAvroStageToDestination`, part_003:571-588, an oracle here).  Returns
the result and the trace of attempted copies. -/
def copyAvroStagesFrom (copy : Int → Except String Unit) (s : Int) :
    Nat → Except String Unit × List NormalizeEvent
  | 0 => (Except.ok (), [])
  | n + 1 =>
    match copy s with
    | Except.error e =>
        (Except.error ("failed to copy avro stage to destination: " ++ e),
         [NormalizeEvent.copyStage s])
    | Except.ok _ =>
      let rest := copyAvroStagesFrom copy (s + 1) n
      (rest.1, NormalizeEvent.copyStage s :: rest.2)

/-- The loop `for s := normBatchID + 1; s <= syncBatchID; s++`
(part_003:590-599). -/
def copyAvroStagesToDestination (copy : Int → Except String Unit)
    (normBatchID syncBatchID : Int) : Except String Unit × List NormalizeEvent :=
  copyAvroStagesFrom copy (normBatchID + 1) (syncBatchID - normBatchID).toNat

/-- Row scan of `getDistinctTableNamesInBatch` (part_003:546-562): an invalid
(NULL) name is an error; a valid name is kept iff it is a key of the
table-to-schema mapping, otherwise it is logged and skipped. -/
def scanTableNames (tableToSchema : List (String × TableSchema)) :
    List (Option String) → Except String (List String)
  | [] => Except.ok []
  | none :: _ => Except.error "table name is not valid"
  | some n :: rest =>
    match scanTableNames tableToSchema rest with
    | Except.error e => Except.error e
    | Except.ok tl =>
      Except.ok (if (tableToSchema.lookup n).isSome then n :: tl else tl)

/-- Distinct destination tables of the raw window
(`getDistinctTableNamesInBatch`, part_003:528-569); the `SELECT DISTINCT`
query result is the oracle `rawDistinctTables`. -/
def getDistinctTableNamesInBatch (rawDistinctTables : Except String (List (Option String)))
    (tableToSchema : List (String × TableSchema)) : Except String (List String) :=
  match rawDistinctTables with
  | Except.error e =>
      Except.error ("error while querying raw table for distinct table names in batch: " ++ e)
  | Except.ok rows => scanTableNames tableToSchema rows

/-- Connection usage of worker `i` (part_003:294-305): worker 0 reuses the
connector's shared connection `c.database`; every other worker opens a fresh
connection via `Connect` and closes it on exit (`defer chConn.Close()`). -/
structure WorkerConn where
  usesShared : Bool
  opensFresh : Bool
  closesOnExit : Bool
deriving Repr, DecidableEq

/-- Worker `i`'s connection plan (part_003:295-305). -/
def workerConnPlan (i : Nat) : WorkerConn :=
  if i = 0 then
    { usesShared := true, opensFresh := false, closesOnExit := false }
  else
    { usesShared := false, opensFresh := true, closesOnExit := true }

/-- Sequentialized execution of the queries sent over the `queries` channel
(part_003:307-316): each query is executed in order; the first error stops
execution, as the errgroup cancellation does in the source. -/
def runQueries (exec : String → Except String Unit) :
    List String → Except String Unit × List NormalizeEvent
  | [] => (Except.ok (), [])
  | q :: rest =>
    match exec q with
    | Except.error e =>
        (Except.error ("error while inserting into normalized table: " ++ e),
         [NormalizeEvent.execInsert q])
    | Except.ok _ =>
      let r := runQueries exec rest
      (r.1, NormalizeEvent.execInsert q :: r.2)

/-- The `NormalizeRecords` entry point (part_003:233-526) over the oracle
environment and the catalog state; returns the result, the catalog state
after the invocation, and the event trace.  The worker pool and the bounded
channel are sequentialized: plans are built and executed in the production
order of the two nested loops, which preserves the observable behavior the
claims speak about (query set, error propagation, pointer updates). -/
def NormalizeRecords (env : NormalizeEnv) (cat : Catalog)
    (req : NormalizeRecordsRequest) :
    Except String NormalizeResponse × Catalog × List NormalizeEvent :=
  match env.getLastNormalizeBatchIDErr with
  | some e => (Except.error e, cat, [])
  | none =>
    let normBatchID := cat.lastNormalizeBatchID
    if req.syncBatchID ≤ normBatchID then
      (Except.ok { startBatchID := normBatchID, endBatchID := req.syncBatchID }, cat, [])
    else
      match copyAvroStagesToDestination env.copyStage normBatchID req.syncBatchID with
      | (Except.error e, ctr) =>
          (Except.error ("failed to copy avro stages to destination: " ++ e), cat, ctr)
      | (Except.ok _, ctr) =>
        match getDistinctTableNamesInBatch env.rawDistinctTables req.tableNameSchemaMapping with
        | Except.error e => (Except.error e, cat, ctr ++ [NormalizeEvent.queryDistinctTables])
        | Except.ok destinationTableNames =>
          match env.enablePrimaryUpdate with
          | Except.error e => (Except.error e, cat, ctr ++ [NormalizeEvent.queryDistinctTables])
          | Except.ok enablePrimaryUpdate =>
            match env.parallelNormalizeCfg with
            | Except.error e =>
                (Except.error e, cat, ctr ++ [NormalizeEvent.queryDistinctTables])
            | Except.ok pcfg =>
              let parallelNormalize := min (max pcfg 1) (destinationTableNames.length : Int)
              let numParts :=
                max (match env.numPartsCfg with
                     | Except.error _ => 1
                     | Except.ok np => np) 1
              let rawTbl := getRawTableName req.flowJobName
              let spawnTrace := (List.range parallelNormalize.toNat).map
                (fun i => NormalizeEvent.spawnWorker i (workerConnPlan i).usesShared)
              match buildAllQueries env.binaryFormat env.toDWH req.tableMappings
                  req.tableNameSchemaMapping enablePrimaryUpdate numParts rawTbl
                  normBatchID req.syncBatchID destinationTableNames with
              | Except.error e =>
                  (Except.error e, cat,
                   ctr ++ [NormalizeEvent.queryDistinctTables] ++ spawnTrace)
              | Except.ok queries =>
                match runQueries env.execQuery queries with
                | (Except.error e, etr) =>
                    (Except.error e, cat,
                     ctr ++ [NormalizeEvent.queryDistinctTables] ++ spawnTrace ++ etr)
                | (Except.ok _, etr) =>
                  match env.updateErr with
                  | some e =>
                      (Except.error e, cat,
                       ctr ++ [NormalizeEvent.queryDistinctTables] ++ spawnTrace ++ etr)
                  | none =>
                    (Except.ok { startBatchID := normBatchID + 1, endBatchID := req.syncBatchID },
                     { lastNormalizeBatchID := req.syncBatchID },
                     ctr ++ [NormalizeEvent.queryDistinctTables] ++ spawnTrace ++ etr
                       ++ [NormalizeEvent.updateBatchId req.syncBatchID])

/-- Sample oracle environment in which every collaborator succeeds. -/
def envAllOk : NormalizeEnv where
  getLastNormalizeBatchIDErr := none
  copyStage := fun _ => Except.ok ()
  rawDistinctTables := Except.ok [some "t"]
  enablePrimaryUpdate := Except.ok false
  parallelNormalizeCfg := Except.ok 4
  numPartsCfg := Except.ok 1
  binaryFormat := Except.ok BinaryFormat.raw
  toDWH := fun _ _ => Except.ok "Int64"
  execQuery := fun _ => Except.ok ()
  updateErr := none

/-- Sample schema of a one-column table `t`. -/
def schemaT : TableSchema where
  columns := [{ name := "id", type := "int64" }]
  primaryKeyColumns := ["id"]
  nullableEnabled := false

/-- Sample normalize request for flow `f`, batches (2, 4]. -/
def reqEx : NormalizeRecordsRequest where
  flowJobName := "f"
  syncBatchID := 4
  tableNameSchemaMapping := [("t", schemaT)]
  tableMappings := []

/-- Oracle environment in which the raw window only mentions a table that is
absent from the schema mapping. -/
def envNoTables : NormalizeEnv where
  getLastNormalizeBatchIDErr := none
  copyStage := fun _ => Except.ok ()
  rawDistinctTables := Except.ok [some "gone"]
  enablePrimaryUpdate := Except.ok false
  parallelNormalizeCfg := Except.ok 4
  numPartsCfg := Except.ok 1
  binaryFormat := Except.ok BinaryFormat.raw
  toDWH := fun _ _ => Except.ok "Int64"
  execQuery := fun _ => Except.ok ()
  updateErr := none

/-- Example raw row used by witnesses. -/
def rowEx : RawRow where
  uid := "u"
  timestamp := 10
  destinationTableName := "t"
  data := ""
  matchData := "m"
  batchId := 3
  recordType := 1

/-- Millisecond-precision reading of the timestamp projection as the spec's
words state it (section 4.2, "millisecond-precision best-effort-null"):
`parseDateTime64BestEffortOrNull` at DateTime64 scale 3.  Stated from the
spec for comparison with the source projection, which uses scale 6. -/
def specMillisecondProjection (colName dstColName : String) : String :=
  "parseDateTime64BestEffortOrNull(JSONExtractString(_peerdb_data, '"
    ++ EscapeStr colName ++ "'),3) AS `" ++ dstColName ++ "`,"

/-- Modelled from the spec: semantics of the ClickHouse function
`parseDateTime64BestEffortOrNull` (ClickHouse runtime, external to this
repository): a best-effort parse at the given scale whose result on a
malformed input is NULL (`none`) rather than an error (spec section 4.2:
"a malformed value becomes NULL, never fails the batch").  `parse` is the
underlying partial best-effort parser. -/
def parseDateTime64BestEffortOrNullSem (parse : String → Nat → Option Int)
    (s : String) (scale : Nat) : Except String (Option Int) :=
  Except.ok (parse s scale)

/-- Sample table mapping with two ordering columns declared out of order. -/
def tmEx : TableMapping where
  destinationTableIdentifier := "t"
  columns :=
    [{ sourceName := "b", destinationName := "", destinationType := "",
       ordering := 2, nullableEnabled := false },
     { sourceName := "a", destinationName := "", destinationType := "",
       ordering := 1, nullableEnabled := false }]
  engine := TableEngine.chEngineReplacingMergeTree

theorem strJoinCons (s : String) (l : List String) :
    String.join (s :: l) = s ++ String.join l := by
  apply String.ext
  rw [String.data_append, String.join_eq, String.join_eq]
  simp

theorem strJoinAppend (a b : List String) :
    String.join (a ++ b) = String.join a ++ String.join b := by
  apply String.ext
  rw [String.data_append, String.join_eq, String.join_eq, String.join_eq]
  simp

theorem mapM_ok_length {α β : Type} (f : α → Except String β) :
    ∀ (xs : List α) (l : List β), xs.mapM f = Except.ok l → l.length = xs.length := by
  intro xs
  induction xs with
  | nil =>
    intro l h
    rw [List.mapM_nil] at h
    cases h
    rfl
  | cons x xs ih =>
    intro l h
    rw [List.mapM_cons] at h
    cases hf : f x with
    | error e => rw [hf] at h; simp [Bind.bind, Except.bind] at h
    | ok b =>
      rw [hf] at h
      cases hm : xs.mapM f with
      | error e => rw [hm] at h; simp [Bind.bind, Except.bind] at h
      | ok bs =>
        rw [hm] at h
        simp only [Bind.bind, Except.bind, Pure.pure, Except.pure, Except.ok.injEq] at h
        subst h
        simp [ih bs hm]

theorem insertByOrdering_perm (c : ColumnSetting) (l : List ColumnSetting) :
    (insertByOrdering c l).Perm (c :: l) := by
  induction l with
  | nil => simp [insertByOrdering]
  | cons d ds ih =>
    rw [insertByOrdering]
    split
    · exact (ih.cons d).trans (List.Perm.swap c d ds)
    · exact List.Perm.refl _

theorem insertByOrdering_pairwise (c : ColumnSetting) (l : List ColumnSetting)
    (h : l.Pairwise (fun a b => a.ordering ≤ b.ordering)) :
    (insertByOrdering c l).Pairwise (fun a b => a.ordering ≤ b.ordering) := by
  induction l with
  | nil => simp [insertByOrdering]
  | cons d ds ih =>
    rw [insertByOrdering]
    rcases List.pairwise_cons.1 h with ⟨hd, hds⟩
    split
    · next hlt =>
      refine List.pairwise_cons.2 ⟨?_, ih hds⟩
      intro x hx
      rcases List.mem_cons.1 ((insertByOrdering_perm c ds).mem_iff.1 hx) with rfl | hmem
      · exact le_of_lt hlt
      · exact hd x hmem
    · next hnlt =>
      have hcd : c.ordering ≤ d.ordering := le_of_not_lt hnlt
      refine List.pairwise_cons.2 ⟨?_, h⟩
      intro x hx
      rcases List.mem_cons.1 hx with rfl | hmem
      · exact hcd
      · exact le_trans hcd (hd x hmem)

theorem sortByOrdering_perm (l : List ColumnSetting) : (sortByOrdering l).Perm l := by
  induction l with
  | nil => exact List.Perm.refl _
  | cons c cs ih =>
    rw [sortByOrdering]
    exact (insertByOrdering_perm c (sortByOrdering cs)).trans (ih.cons c)

theorem sortByOrdering_pairwise (l : List ColumnSetting) :
    (sortByOrdering l).Pairwise (fun a b => a.ordering ≤ b.ordering) := by
  induction l with
  | nil => simp [sortByOrdering]
  | cons c cs ih => exact insertByOrdering_pairwise c _ ih

theorem copyAvroStagesFrom_get (copy : Int → Except String Unit) :
    ∀ (n : Nat) (s : Int) (k : Nat)
      (hk : k < ((copyAvroStagesFrom copy s n).2).length),
      ((copyAvroStagesFrom copy s n).2).get ⟨k, hk⟩ = NormalizeEvent.copyStage (s + k) := by
  intro n
  induction n with
  | zero =>
    intro s k hk
    simp [copyAvroStagesFrom] at hk
  | succ n ih =>
    intro s k
    simp only [copyAvroStagesFrom]
    cases hc : copy s with
    | error e =>
      intro hk
      have hk0 : k = 0 := Nat.lt_one_iff.1 (by simpa using hk)
      subst hk0
      simp
    | ok u =>
      cases u
      intro hk
      cases k with
      | zero => simp
      | succ k =>
        have hk2 : k < ((copyAvroStagesFrom copy (s + 1) n).2).length := by
          simpa using Nat.lt_of_succ_lt_succ (by simpa using hk)
        have hih := ih (s + 1) k hk2
        simp only [List.get_cons_succ]
        rw [hih]
        congr 1
        push_cast
        ring

theorem copyAvroStagesFrom_length_le (copy : Int → Except String Unit) :
    ∀ (n : Nat) (s : Int), ((copyAvroStagesFrom copy s n).2).length ≤ n := by
  intro n
  induction n with
  | zero => intro s; simp [copyAvroStagesFrom]
  | succ n ih =>
    intro s
    simp only [copyAvroStagesFrom]
    cases hc : copy s with
    | error e => simp
    | ok u => cases u; simpa using Nat.succ_le_succ (ih (s + 1))

theorem copyAvroStagesFrom_ok_length (copy : Int → Except String Unit) :
    ∀ (n : Nat) (s : Int), (copyAvroStagesFrom copy s n).1 = Except.ok () →
      ((copyAvroStagesFrom copy s n).2).length = n := by
  intro n
  induction n with
  | zero => intro s _; simp [copyAvroStagesFrom]
  | succ n ih =>
    intro s
    simp only [copyAvroStagesFrom]
    cases hc : copy s with
    | error e => intro h; simp at h
    | ok u =>
      cases u
      intro h
      simpa using ih (s + 1) (by simpa using h)

theorem copyAvroStagesFrom_events (copy : Int → Except String Unit) :
    ∀ (n : Nat) (s : Int) (e : NormalizeEvent), e ∈ (copyAvroStagesFrom copy s n).2 →
      ∃ b, e = NormalizeEvent.copyStage b := by
  intro n
  induction n with
  | zero => intro s e he; simp [copyAvroStagesFrom] at he
  | succ n ih =>
    intro s e
    simp only [copyAvroStagesFrom]
    cases hc : copy s with
    | error er =>
      intro he
      simp at he
      exact ⟨s, he⟩
    | ok u =>
      cases u
      intro he
      simp only [List.mem_cons] at he
      rcases he with rfl | he
      · exact ⟨s, rfl⟩
      · exact ih (s + 1) e he

theorem NormalizeRecords_shape (env : NormalizeEnv) (cat : Catalog)
    (req : NormalizeRecordsRequest) :
    (∃ e tr, NormalizeRecords env cat req = (Except.error e, cat, tr))
    ∨ (req.syncBatchID ≤ cat.lastNormalizeBatchID
        ∧ NormalizeRecords env cat req
          = (Except.ok { startBatchID := cat.lastNormalizeBatchID,
                         endBatchID := req.syncBatchID }, cat, []))
    ∨ (cat.lastNormalizeBatchID < req.syncBatchID ∧ ∃ tr,
        NormalizeRecords env cat req
          = (Except.ok { startBatchID := cat.lastNormalizeBatchID + 1,
                         endBatchID := req.syncBatchID },
             { lastNormalizeBatchID := req.syncBatchID }, tr)) := by
  cases hg : env.getLastNormalizeBatchIDErr with
  | some e => exact Or.inl ⟨e, [], by simp [NormalizeRecords, hg]⟩
  | none =>
    by_cases hle : req.syncBatchID ≤ cat.lastNormalizeBatchID
    · exact Or.inr (Or.inl ⟨hle, by simp [NormalizeRecords, hg, hle]⟩)
    · have hlt : cat.lastNormalizeBatchID < req.syncBatchID := lt_of_not_le hle
      rcases hcp : copyAvroStagesToDestination env.copyStage cat.lastNormalizeBatchID
          req.syncBatchID with ⟨cr, ctr⟩
      cases cr with
      | error e => exact Or.inl ⟨_, _, by simp [NormalizeRecords, hg, hle, hcp] <;> first | exact ⟨rfl, rfl⟩ | rfl⟩
      | ok u =>
        cases u
        cases hdt : getDistinctTableNamesInBatch env.rawDistinctTables
            req.tableNameSchemaMapping with
        | error e => exact Or.inl ⟨_, _, by simp [NormalizeRecords, hg, hle, hcp, hdt] <;> first | exact ⟨rfl, rfl⟩ | rfl⟩
        | ok tbls =>
          cases hen : env.enablePrimaryUpdate with
          | error e =>
            exact Or.inl ⟨_, _, by simp [NormalizeRecords, hg, hle, hcp, hdt, hen] <;> first | exact ⟨rfl, rfl⟩ | rfl⟩
          | ok enable =>
            cases hpc : env.parallelNormalizeCfg with
            | error e =>
              exact Or.inl ⟨_, _, by simp [NormalizeRecords, hg, hle, hcp, hdt, hen, hpc] <;> first | exact ⟨rfl, rfl⟩ | rfl⟩
            | ok pcfg =>
              cases hbq : buildAllQueries env.binaryFormat env.toDWH req.tableMappings
                  req.tableNameSchemaMapping enable
                  (max (match env.numPartsCfg with
                        | Except.error _ => 1
                        | Except.ok np => np) 1)
                  (getRawTableName req.flowJobName) cat.lastNormalizeBatchID
                  req.syncBatchID tbls with
              | error e =>
                exact Or.inl ⟨_, _, by
                  simp [NormalizeRecords, hg, hle, hcp, hdt, hen, hpc, hbq] <;> first | exact ⟨rfl, rfl⟩ | rfl⟩
              | ok queries =>
                rcases hrq : runQueries env.execQuery queries with ⟨rr, etr⟩
                cases rr with
                | error e =>
                  exact Or.inl ⟨_, _, by
                    simp [NormalizeRecords, hg, hle, hcp, hdt, hen, hpc, hbq, hrq] <;> first | exact ⟨rfl, rfl⟩ | rfl⟩
                | ok u =>
                  cases u
                  cases hup : env.updateErr with
                  | some e =>
                    exact Or.inl ⟨_, _, by
                      simp [NormalizeRecords, hg, hle, hcp, hdt, hen, hpc, hbq, hrq, hup] <;> first | exact ⟨rfl, rfl⟩ | rfl⟩
                  | none =>
                    exact Or.inr (Or.inr ⟨hlt, _, by
                      simp [NormalizeRecords, hg, hle, hcp, hdt, hen, hpc, hbq, hrq, hup] <;> first | exact ⟨rfl, rfl⟩ | rfl⟩)

/-- C1: for every invocation of `NormalizeRecords` (under the catalog
invariant `last_normalize_batch_id ≤ sync_batch_id`, spec section 3): if the
invocation returns without error, `last_normalize_batch_id` in the catalog
equals the `sync_batch_id` observed at the start; if it returns an error at
any stage (stage copy, table enumeration, config reads, type conversion,
query execution or cancellation, pointer update), the catalog is unchanged. -/
theorem NormalizeRecords_monotone_progress (env : NormalizeEnv) (cat : Catalog)
    (req : NormalizeRecordsRequest)
    (hinv : cat.lastNormalizeBatchID ≤ req.syncBatchID) :
    (∀ resp, (NormalizeRecords env cat req).1 = Except.ok resp →
      (NormalizeRecords env cat req).2.1.lastNormalizeBatchID = req.syncBatchID)
    ∧ (∀ e, (NormalizeRecords env cat req).1 = Except.error e →
      (NormalizeRecords env cat req).2.1 = cat) := by
  rcases NormalizeRecords_shape env cat req with ⟨e, tr, h⟩ | ⟨hle, h⟩ | ⟨hlt, tr, h⟩
  · constructor
    · intro resp hok
      rw [h] at hok
      cases hok
    · intro e2 he
      rw [h]
  · constructor
    · intro resp hok
      rw [h]
      exact le_antisymm hinv hle
    · intro e2 he
      rw [h] at he
      cases he
  · constructor
    · intro resp hok
      rw [h]
    · intro e2 he
      rw [h] at he
      cases he




theorem NormalizeRecords_monotone_progress_witness :
    Catalog.lastNormalizeBatchID { lastNormalizeBatchID := 2 } ≤ reqEx.syncBatchID
    ∧ (NormalizeRecords envAllOk { lastNormalizeBatchID := 2 } reqEx).2.1.lastNormalizeBatchID
        = reqEx.syncBatchID :=
  ⟨by decide,
   (NormalizeRecords_monotone_progress envAllOk { lastNormalizeBatchID := 2 } reqEx
       (by decide)).1
     { startBatchID := 3, endBatchID := 4 } (by rfl)⟩

theorem NormalizeRecords_trace_shape (env : NormalizeEnv) (cat : Catalog)
    (req : NormalizeRecordsRequest)
    (hg : env.getLastNormalizeBatchIDErr = none)
    (hle : ¬ req.syncBatchID ≤ cat.lastNormalizeBatchID) :
    (∀ e, (copyAvroStagesToDestination env.copyStage cat.lastNormalizeBatchID
        req.syncBatchID).1 = Except.error e →
      (NormalizeRecords env cat req).1
          = Except.error ("failed to copy avro stages to destination: " ++ e)
        ∧ (NormalizeRecords env cat req).2.2
          = (copyAvroStagesToDestination env.copyStage cat.lastNormalizeBatchID
              req.syncBatchID).2)
    ∧ ((copyAvroStagesToDestination env.copyStage cat.lastNormalizeBatchID
        req.syncBatchID).1 = Except.ok () →
      ∃ rest, (NormalizeRecords env cat req).2.2
        = (copyAvroStagesToDestination env.copyStage cat.lastNormalizeBatchID
            req.syncBatchID).2 ++ NormalizeEvent.queryDistinctTables :: rest) := by
  rcases hcp : copyAvroStagesToDestination env.copyStage cat.lastNormalizeBatchID
      req.syncBatchID with ⟨cr, ctr⟩
  cases cr with
  | error e =>
    constructor
    · intro e2 he
      simp only at he
      cases he
      exact ⟨by simp [NormalizeRecords, hg, hle, hcp], by simp [NormalizeRecords, hg, hle, hcp]⟩
    · intro hok
      simp at hok
  | ok u =>
    cases u
    constructor
    · intro e2 he
      simp at he
    · intro _
      simp only
      cases hdt : getDistinctTableNamesInBatch env.rawDistinctTables
          req.tableNameSchemaMapping with
      | error e =>
        exact ⟨[], by simp [NormalizeRecords, hg, hle, hcp, hdt]⟩
      | ok tbls =>
        cases hen : env.enablePrimaryUpdate with
        | error e => exact ⟨[], by simp [NormalizeRecords, hg, hle, hcp, hdt, hen]⟩
        | ok enable =>
          cases hpc : env.parallelNormalizeCfg with
          | error e =>
            exact ⟨[], by simp [NormalizeRecords, hg, hle, hcp, hdt, hen, hpc]⟩
          | ok pcfg =>
            cases hbq : buildAllQueries env.binaryFormat env.toDWH req.tableMappings
                req.tableNameSchemaMapping enable
                (max (match env.numPartsCfg with
                      | Except.error _ => 1
                      | Except.ok np => np) 1)
                (getRawTableName req.flowJobName) cat.lastNormalizeBatchID
                req.syncBatchID tbls with
            | error e =>
              exact ⟨_, by simp [NormalizeRecords, hg, hle, hcp, hdt, hen, hpc, hbq] <;> rfl⟩
            | ok queries =>
              rcases hrq : runQueries env.execQuery queries with ⟨rr, etr⟩
              cases rr with
              | error e =>
                exact ⟨_, by simp [NormalizeRecords, hg, hle, hcp, hdt, hen, hpc, hbq, hrq] <;> rfl⟩
              | ok u =>
                cases u
                cases hup : env.updateErr with
                | some e =>
                  exact ⟨_, by
                    simp [NormalizeRecords, hg, hle, hcp, hdt, hen, hpc, hbq, hrq, hup] <;> rfl⟩
                | none =>
                  exact ⟨_, by
                    simp [NormalizeRecords, hg, hle, hcp, hdt, hen, hpc, hbq, hrq, hup] <;> rfl⟩

/-- C9: with the catalog pointer read successfully, (a) if `norm ≥ sync` the
invocation returns `(norm, sync)` with no work at all (empty trace); (b)
otherwise the stage loader attempts the Avro stage of batch `norm + 1 + k`
as the k-th copy event, covers exactly every batch in `(norm, sync]` when it
succeeds — and only then does the table enumeration event follow — and the
first failed copy aborts the invocation with no further events. -/
theorem NormalizeRecords_caught_up_and_stage_order (env : NormalizeEnv) (cat : Catalog)
    (req : NormalizeRecordsRequest)
    (hg : env.getLastNormalizeBatchIDErr = none) :
    (req.syncBatchID ≤ cat.lastNormalizeBatchID →
      NormalizeRecords env cat req
        = (Except.ok { startBatchID := cat.lastNormalizeBatchID,
                       endBatchID := req.syncBatchID }, cat, []))
    ∧ (cat.lastNormalizeBatchID < req.syncBatchID →
      (∀ (k : Nat) (hk : k < ((copyAvroStagesToDestination env.copyStage
            cat.lastNormalizeBatchID req.syncBatchID).2).length),
        ((copyAvroStagesToDestination env.copyStage cat.lastNormalizeBatchID
            req.syncBatchID).2).get ⟨k, hk⟩
          = NormalizeEvent.copyStage (cat.lastNormalizeBatchID + 1 + k))
      ∧ ((copyAvroStagesToDestination env.copyStage cat.lastNormalizeBatchID
            req.syncBatchID).1 = Except.ok () →
          ((copyAvroStagesToDestination env.copyStage cat.lastNormalizeBatchID
              req.syncBatchID).2).length
            = (req.syncBatchID - cat.lastNormalizeBatchID).toNat
          ∧ ∃ rest, (NormalizeRecords env cat req).2.2
              = (copyAvroStagesToDestination env.copyStage cat.lastNormalizeBatchID
                  req.syncBatchID).2 ++ NormalizeEvent.queryDistinctTables :: rest)
      ∧ (∀ e, (copyAvroStagesToDestination env.copyStage cat.lastNormalizeBatchID
            req.syncBatchID).1 = Except.error e →
          (NormalizeRecords env cat req).1
            = Except.error ("failed to copy avro stages to destination: " ++ e)
          ∧ (NormalizeRecords env cat req).2.2
            = (copyAvroStagesToDestination env.copyStage cat.lastNormalizeBatchID
                req.syncBatchID).2)) := by
  constructor
  · intro hle
    simp [NormalizeRecords, hg, hle]
  · intro hlt
    have hle : ¬ req.syncBatchID ≤ cat.lastNormalizeBatchID := not_le.2 hlt
    refine ⟨?_, ?_, ?_⟩
    · intro k hk
      exact copyAvroStagesFrom_get env.copyStage
        (req.syncBatchID - cat.lastNormalizeBatchID).toNat
        (cat.lastNormalizeBatchID + 1) k hk
    · intro hok
      refine ⟨copyAvroStagesFrom_ok_length env.copyStage _ _ hok, ?_⟩
      exact (NormalizeRecords_trace_shape env cat req hg hle).2 hok
    · intro e he
      exact (NormalizeRecords_trace_shape env cat req hg hle).1 e he

theorem NormalizeRecords_caught_up_and_stage_order_witness :
    ((copyAvroStagesToDestination envAllOk.copyStage 2 4).2).length = 2
    ∧ (∃ rest, (NormalizeRecords envAllOk { lastNormalizeBatchID := 2 } reqEx).2.2
        = (copyAvroStagesToDestination envAllOk.copyStage 2 4).2
            ++ NormalizeEvent.queryDistinctTables :: rest) := by
  have h := (NormalizeRecords_caught_up_and_stage_order envAllOk
      { lastNormalizeBatchID := 2 } reqEx rfl).2 (by decide)
  exact ⟨(h.2.1 (by rfl)).1, (h.2.1 (by rfl)).2⟩

/-- C10: when `norm < sync` but the filtered distinct-table set of the window
is empty, the invocation spawns zero workers, executes no insert queries,
still advances `last_normalize_batch_id` to `sync_batch_id`, and returns
`(norm + 1, sync)` — the window is skipped for good. -/
theorem NormalizeRecords_empty_window_skips (env : NormalizeEnv) (cat : Catalog)
    (req : NormalizeRecordsRequest)
    (hg : env.getLastNormalizeBatchIDErr = none)
    (hlt : cat.lastNormalizeBatchID < req.syncBatchID)
    (hcp : (copyAvroStagesToDestination env.copyStage cat.lastNormalizeBatchID
        req.syncBatchID).1 = Except.ok ())
    (hdt : getDistinctTableNamesInBatch env.rawDistinctTables
        req.tableNameSchemaMapping = Except.ok [])
    (hen : ∃ b, env.enablePrimaryUpdate = Except.ok b)
    (hpc : ∃ p, env.parallelNormalizeCfg = Except.ok p)
    (hup : env.updateErr = none) :
    (NormalizeRecords env cat req).1
      = Except.ok { startBatchID := cat.lastNormalizeBatchID + 1,
                    endBatchID := req.syncBatchID }
    ∧ (NormalizeRecords env cat req).2.1 = { lastNormalizeBatchID := req.syncBatchID }
    ∧ (∀ q, NormalizeEvent.execInsert q ∉ (NormalizeRecords env cat req).2.2)
    ∧ (∀ i b, NormalizeEvent.spawnWorker i b ∉ (NormalizeRecords env cat req).2.2) := by
  obtain ⟨b, hen⟩ := hen
  obtain ⟨p, hpc⟩ := hpc
  have hle : ¬ req.syncBatchID ≤ cat.lastNormalizeBatchID := not_le.2 hlt
  rcases hcp2 : copyAvroStagesToDestination env.copyStage cat.lastNormalizeBatchID
      req.syncBatchID with ⟨cr, ctr⟩
  rw [hcp2] at hcp
  simp only at hcp
  subst hcp
  have hmin : min (max p 1) ((0 : Nat) : Int) = 0 :=
    min_eq_right (by positivity)
  have htrace : NormalizeRecords env cat req
      = (Except.ok { startBatchID := cat.lastNormalizeBatchID + 1,
                     endBatchID := req.syncBatchID },
         { lastNormalizeBatchID := req.syncBatchID },
         ctr ++ [NormalizeEvent.queryDistinctTables,
                 NormalizeEvent.updateBatchId req.syncBatchID]) := by
    simp [NormalizeRecords, hg, hle, hcp2, hdt, hen, hpc, hup, buildAllQueries, runQueries]
  refine ⟨by rw [htrace], by rw [htrace], ?_, ?_⟩
  · intro q hq
    rw [htrace] at hq
    simp at hq
    obtain ⟨bb, hbb⟩ := copyAvroStagesFrom_events env.copyStage _ _ _
      (show NormalizeEvent.execInsert q ∈
        (copyAvroStagesToDestination env.copyStage cat.lastNormalizeBatchID
          req.syncBatchID).2 from by rw [hcp2]; exact hq)
    cases hbb
  · intro i b2 hq
    rw [htrace] at hq
    simp at hq
    obtain ⟨bb, hbb⟩ := copyAvroStagesFrom_events env.copyStage _ _ _
      (show NormalizeEvent.spawnWorker i b2 ∈
        (copyAvroStagesToDestination env.copyStage cat.lastNormalizeBatchID
          req.syncBatchID).2 from by rw [hcp2]; exact hq)
    cases hbb


theorem NormalizeRecords_empty_window_skips_witness :
    (NormalizeRecords envNoTables { lastNormalizeBatchID := 2 } reqEx).1
      = Except.ok { startBatchID := 3, endBatchID := 4 }
    ∧ (∀ i b, NormalizeEvent.spawnWorker i b
        ∉ (NormalizeRecords envNoTables { lastNormalizeBatchID := 2 } reqEx).2.2) := by
  have h := NormalizeRecords_empty_window_skips envNoTables { lastNormalizeBatchID := 2 }
    reqEx rfl (by decide) (by rfl) (by rfl) ⟨false, rfl⟩ ⟨4, rfl⟩ rfl
  exact ⟨h.1, h.2.2.2⟩

/-- C6: in any invocation that reaches the executor stage, the worker pool
has exactly `min(max(configured parallelism, 1), number of distinct
destination tables))` workers (spawn events `0, …, P-1` appear in the trace
right after table enumeration), worker 0 reuses the connector's shared
connection, and every other worker opens a fresh connection and closes it on
exit. -/
theorem NormalizeRecords_worker_pool (env : NormalizeEnv) (cat : Catalog)
    (req : NormalizeRecordsRequest) (tbls : List String) (b : Bool) (p : Int)
    (hg : env.getLastNormalizeBatchIDErr = none)
    (hlt : cat.lastNormalizeBatchID < req.syncBatchID)
    (hcp : (copyAvroStagesToDestination env.copyStage cat.lastNormalizeBatchID
        req.syncBatchID).1 = Except.ok ())
    (hdt : getDistinctTableNamesInBatch env.rawDistinctTables
        req.tableNameSchemaMapping = Except.ok tbls)
    (hen : env.enablePrimaryUpdate = Except.ok b)
    (hpc : env.parallelNormalizeCfg = Except.ok p) :
    (∃ post, (NormalizeRecords env cat req).2.2
      = (copyAvroStagesToDestination env.copyStage cat.lastNormalizeBatchID
          req.syncBatchID).2
        ++ NormalizeEvent.queryDistinctTables ::
          ((List.range (min (max p 1) (tbls.length : Int)).toNat).map
            (fun i => NormalizeEvent.spawnWorker i (workerConnPlan i).usesShared) ++ post))
    ∧ ((List.range (min (max p 1) (tbls.length : Int)).toNat).map
          (fun i => NormalizeEvent.spawnWorker i (workerConnPlan i).usesShared)).length
        = (min (max p 1) (tbls.length : Int)).toNat
    ∧ workerConnPlan 0 = { usesShared := true, opensFresh := false, closesOnExit := false }
    ∧ (∀ i, i ≠ 0 →
        workerConnPlan i = { usesShared := false, opensFresh := true, closesOnExit := true }) := by
  have hle : ¬ req.syncBatchID ≤ cat.lastNormalizeBatchID := not_le.2 hlt
  refine ⟨?_, by simp, rfl, fun i hi => by simp [workerConnPlan, hi]⟩
  rcases hcp2 : copyAvroStagesToDestination env.copyStage cat.lastNormalizeBatchID
      req.syncBatchID with ⟨cr, ctr⟩
  rw [hcp2] at hcp
  simp only at hcp
  subst hcp
  cases hbq : buildAllQueries env.binaryFormat env.toDWH req.tableMappings
      req.tableNameSchemaMapping b
      (max (match env.numPartsCfg with
            | Except.error _ => 1
            | Except.ok np => np) 1)
      (getRawTableName req.flowJobName) cat.lastNormalizeBatchID
      req.syncBatchID tbls with
  | error e =>
    exact ⟨[], by simp [NormalizeRecords, hg, hle, hcp2, hdt, hen, hpc, hbq]⟩
  | ok queries =>
    rcases hrq : runQueries env.execQuery queries with ⟨rr, etr⟩
    cases rr with
    | error e =>
      exact ⟨etr, by simp [NormalizeRecords, hg, hle, hcp2, hdt, hen, hpc, hbq, hrq]⟩
    | ok u =>
      cases u
      cases hup : env.updateErr with
      | some e =>
        exact ⟨etr, by simp [NormalizeRecords, hg, hle, hcp2, hdt, hen, hpc, hbq, hrq, hup]⟩
      | none =>
        exact ⟨etr ++ [NormalizeEvent.updateBatchId req.syncBatchID], by
          simp [NormalizeRecords, hg, hle, hcp2, hdt, hen, hpc, hbq, hrq, hup]⟩

theorem NormalizeRecords_worker_pool_witness :
    ((List.range (min (max (4 : Int) 1) (([("t", schemaT)].map Prod.fst).length : Int)).toNat).map
        (fun i => NormalizeEvent.spawnWorker i (workerConnPlan i).usesShared)).length
      = (min (max (4 : Int) 1) (1 : Int)).toNat
    ∧ workerConnPlan 0
      = { usesShared := true, opensFresh := false, closesOnExit := false } := by
  have h := NormalizeRecords_worker_pool envAllOk { lastNormalizeBatchID := 2 } reqEx
    ["t"] false 4 rfl (by decide) (by rfl) (by rfl) rfl rfl
  exact ⟨h.2.1, h.2.2.1⟩

/-- C3: for every `parts ≥ 1` the planner emits exactly `parts` plans for each
destination table, and the per-part predicates
`cityHash64(_peerdb_uid) % parts = part` select pairwise-disjoint row sets
whose union is exactly the row set the single plan with `parts = 1` selects. -/
theorem normalize_partition_plans (binaryFormat : Except String BinaryFormat)
    (toDWH : FieldDescription → Bool → Except String String)
    (tableMappings : List TableMapping)
    (tableNameSchemaMapping : List (String × TableSchema))
    (enablePrimaryUpdate : Bool) (rawTbl : String) (normBatchID syncBatchID : Int)
    (tbl : String) (hash : String → Nat) (parts : Nat) (hparts : 1 ≤ parts) :
    (∀ qs, buildQueriesForTable binaryFormat toDWH tableMappings tableNameSchemaMapping
        enablePrimaryUpdate (parts : Int) rawTbl normBatchID syncBatchID tbl
        = Except.ok qs → qs.length = parts)
    ∧ (∀ i j, i < parts → j < parts → i ≠ j → ∀ r : RawRow,
        ¬(mainBranchSelects hash normBatchID syncBatchID tbl parts i r = true
          ∧ mainBranchSelects hash normBatchID syncBatchID tbl parts j r = true))
    ∧ (∀ r : RawRow,
        (∃ i, i < parts ∧ mainBranchSelects hash normBatchID syncBatchID tbl parts i r = true)
        ↔ mainBranchSelects hash normBatchID syncBatchID tbl 1 0 r = true) := by
  refine ⟨?_, ?_, ?_⟩
  · intro qs h
    have hlen := mapM_ok_length _ _ _ h
    simpa using hlen
  · intro i j hi hj hij r hsel
    obtain ⟨h1, h2⟩ := hsel
    by_cases hp : 1 < parts
    · simp [mainBranchSelects, hashPartitionPred, hp] at h1 h2
      exact hij (h1.2.symm.trans h2.2)
    · have hone : parts = 1 := le_antisymm (not_lt.1 hp) hparts
      subst hone
      omega
  · intro r
    by_cases hp : 1 < parts
    · constructor
      · rintro ⟨i, hi, hsel⟩
        simp [mainBranchSelects, hashPartitionPred, hp] at hsel
        simp [mainBranchSelects, hashPartitionPred]
        tauto
      · intro hsel
        simp [mainBranchSelects, hashPartitionPred] at hsel
        refine ⟨hash r.uid % parts, Nat.mod_lt _ (by omega), ?_⟩
        simp [mainBranchSelects, hashPartitionPred, hp]
        tauto
    · have hone : parts = 1 := le_antisymm (not_lt.1 hp) hparts
      subst hone
      constructor
      · rintro ⟨i, hi, hsel⟩
        have : i = 0 := by omega
        subst this
        exact hsel
      · intro hsel
        exact ⟨0, by omega, hsel⟩


theorem normalize_partition_plans_witness :
    (∀ qs, buildQueriesForTable (Except.ok BinaryFormat.raw) (fun _ _ => Except.ok "Int64")
        [] [("t", schemaT)] false ((3 : Nat) : Int) "_peerdb_raw_f" 2 4 "t"
        = Except.ok qs → qs.length = 3)
    ∧ ¬(mainBranchSelects (fun s => s.length) 2 4 "t" 3 0 rowEx = true
        ∧ mainBranchSelects (fun s => s.length) 2 4 "t" 3 1 rowEx = true) := by
  have h := normalize_partition_plans (Except.ok BinaryFormat.raw)
    (fun _ _ => Except.ok "Int64") [] [("t", schemaT)] false "_peerdb_raw_f" 2 4 "t"
    (fun s => s.length) 3 (by decide)
  exact ⟨h.1, h.2.1 0 1 (by decide) (by decide) (by decide) rowEx⟩

/-- C4: every generated plan computes `_peerdb_is_deleted` in its main branch
as `intDiv(_peerdb_record_type, 2)` — the query string contains that exact
projection — and integer division by 2 maps record type 0 (insert) and 1
(update) to 0 and record type 2 (delete) to 1. -/
theorem normalize_sign_is_intdiv (binaryFormat : Except String BinaryFormat)
    (toDWH : FieldDescription → Bool → Except String String)
    (tableMappings : List TableMapping)
    (tableNameSchemaMapping : List (String × TableSchema))
    (enablePrimaryUpdate : Bool) (numParts : Int) (rawTbl : String)
    (normBatchID syncBatchID : Int) (tbl : String) (numPart : Nat) (q : String)
    (h : buildInsertQueryForTablePart binaryFormat toDWH tableMappings
        tableNameSchemaMapping enablePrimaryUpdate numParts rawTbl normBatchID
        syncBatchID tbl numPart = Except.ok q) :
    (∃ a b, q = a ++ (signProjectionFragment ++ b))
    ∧ (∀ r : RawRow, r.recordType = 0 → mainBranchSign r = 0)
    ∧ (∀ r : RawRow, r.recordType = 1 → mainBranchSign r = 0)
    ∧ (∀ r : RawRow, r.recordType = 2 → mainBranchSign r = 1) := by
  refine ⟨?_, ?_, ?_, ?_⟩
  · rw [buildInsertQueryForTablePart] at h
    rcases htp : tableProjections binaryFormat toDWH
        ((tableMappings.find? (fun tm => tm.destinationTableIdentifier == tbl)))
        (((tableNameSchemaMapping.lookup tbl).getD default).nullableEnabled)
        enablePrimaryUpdate
        (((tableNameSchemaMapping.lookup tbl).getD default).columns) with
      he | ⟨sels, ps, pus⟩
    · rw [htp] at h
      cases h
    · rw [htp] at h
      simp only [Except.ok.injEq] at h
      subst h
      refine ⟨String.join (["INSERT INTO `", tbl, "` "] ++ colSelectorFragments sels
          ++ ["SELECT "] ++ ps), ?_, ?_⟩
      · exact String.join (("_peerdb_timestamp AS `" ++ versionColName ++ "`")
          :: ([" FROM ", rawTbl,
               " WHERE _peerdb_batch_id > ", toString normBatchID,
               " AND _peerdb_batch_id <= ", toString syncBatchID,
               " AND _peerdb_destination_table_name = '", tbl, "'"]
            ++ (if 1 < numParts then
                  [" AND cityHash64(_peerdb_uid) % " ++ toString numParts
                     ++ " = " ++ toString numPart]
                else [])
            ++ (if enablePrimaryUpdate then
                  tombstoneFragments rawTbl tbl normBatchID syncBatchID numParts
                    numPart pus
                else [])))
      · rw [← strJoinCons, ← strJoinAppend]
        congr 1
        simp [insertQueryFragments, selectQueryFragments]
  · intro r h0
    simp [mainBranchSign, h0]
  · intro r h1
    simp [mainBranchSign, h1]
  · intro r h2
    simp [mainBranchSign, h2]

theorem normalize_sign_is_intdiv_witness :
    (∃ a b, "INSERT INTO `t` (`id`,`_peerdb_is_deleted`,_peerdb_version) SELECT JSONExtract(_peerdb_data, 'id', 'Int64') AS `id`,intDiv(_peerdb_record_type, 2) AS `_peerdb_is_deleted`,_peerdb_timestamp AS `_peerdb_version` FROM _peerdb_raw_f WHERE _peerdb_batch_id > 2 AND _peerdb_batch_id <= 4 AND _peerdb_destination_table_name = 't'"
        = a ++ (signProjectionFragment ++ b))
    ∧ mainBranchSign { rowEx with recordType := 2 } = 1 := by
  have h := normalize_sign_is_intdiv (Except.ok BinaryFormat.raw)
    (fun _ _ => Except.ok "Int64") [] [("t", schemaT)] false 1 "_peerdb_raw_f" 2 4 "t" 0
    "INSERT INTO `t` (`id`,`_peerdb_is_deleted`,_peerdb_version) SELECT JSONExtract(_peerdb_data, 'id', 'Int64') AS `id`,intDiv(_peerdb_record_type, 2) AS `_peerdb_is_deleted`,_peerdb_timestamp AS `_peerdb_version` FROM _peerdb_raw_f WHERE _peerdb_batch_id > 2 AND _peerdb_batch_id <= 4 AND _peerdb_destination_table_name = 't'"
    (by set_option maxRecDepth 8192 in rfl)
  exact ⟨h.1, h.2.2.2 _ rfl⟩

theorem wrapInt64_eq_self (x : Int) (h1 : minInt64 ≤ x) (h2 : x ≤ maxInt64) :
    wrapInt64 x = x := by
  have h0 : (0 : Int) ≤ x + 2 ^ 63 := by simp only [minInt64] at h1; omega
  have hlt : x + 2 ^ 63 < 2 ^ 64 := by simp only [maxInt64] at h2; omega
  unfold wrapInt64
  rw [Int.emod_eq_of_lt h0 hlt]
  ring

theorem split_around (pre mid sfx lit rest : String)
    (h : pre ++ (mid ++ sfx) = lit) :
    ∃ a b, lit ++ rest = a ++ (mid ++ b) :=
  ⟨pre, sfx ++ rest, by rw [← h]; simp [String.append_assoc]⟩

theorem split_around_of_eq (pre mid sfx lit rest f : String)
    (hpre : pre ++ (mid ++ sfx) = lit) (hf : f = lit ++ rest) :
    ∃ a b, f = a ++ (mid ++ b) :=
  hf ▸ split_around pre mid sfx lit rest hpre

/-- C2: the generated select has the `UNION ALL` tombstone branch exactly when
`enablePrimaryUpdate` is set (the fragment list is the `enable = false` list
followed by the tombstone fragments, which begin with `" UNION ALL SELECT "`,
iff the flag is set); the tombstone branch selects exactly the main-branch
rows with `_peerdb_record_type = 1` and `_peerdb_match_data ≠ ''`; its
projection draws every column value from `_peerdb_match_data`; and its
version `_peerdb_timestamp - 1` is strictly below the main branch's version
`_peerdb_timestamp` whenever the `Int64` subtraction does not underflow. -/
theorem normalize_primary_update_tombstone
    (binaryFormat : Except String BinaryFormat)
    (toDWH : FieldDescription → Bool → Except String String)
    (tableMapping : Option TableMapping) (schemaNullable : Bool)
    (rawTbl tbl : String) (normBatchID syncBatchID : Int)
    (numParts : Int) (numPart : Nat) (projFrags projUpdateFrags : List String)
    (hash : String → Nat) (parts part : Nat) :
    (∀ enable : Bool,
      selectQueryFragments rawTbl tbl normBatchID syncBatchID enable numParts numPart
          projFrags projUpdateFrags
        = selectQueryFragments rawTbl tbl normBatchID syncBatchID false numParts numPart
            projFrags projUpdateFrags
          ++ (if enable then
                tombstoneFragments rawTbl tbl normBatchID syncBatchID numParts numPart
                  projUpdateFrags
              else []))
    ∧ (∃ tl, tombstoneFragments rawTbl tbl normBatchID syncBatchID numParts numPart
          projUpdateFrags = " UNION ALL SELECT " :: tl)
    ∧ (("1 AS `" ++ signColName ++ "`,")
          ∈ tombstoneFragments rawTbl tbl normBatchID syncBatchID numParts numPart
              projUpdateFrags
        ∧ ("_peerdb_timestamp - 1 AS `" ++ versionColName ++ "`")
          ∈ tombstoneFragments rawTbl tbl normBatchID syncBatchID numParts numPart
              projUpdateFrags)
    ∧ (∀ r : RawRow,
        tombstoneBranchSelects hash normBatchID syncBatchID tbl parts part r = true
        ↔ (mainBranchSelects hash normBatchID syncBatchID tbl parts part r = true
            ∧ r.recordType = 1 ∧ r.matchData ≠ ""))
    ∧ (∀ r : RawRow,
        tombstoneBranchSelects hash normBatchID syncBatchID tbl parts part r = true →
        minInt64 < r.timestamp → r.timestamp ≤ maxInt64 →
        tombstoneVersion r < mainBranchVersion r)
    ∧ (∀ (column : FieldDescription) (sel : String) (p pu : List String),
        columnProjection binaryFormat toDWH tableMapping schemaNullable true column
          = Except.ok (sel, p, pu) →
        ∀ f ∈ pu, ∃ a b, f = a ++ ("_peerdb_match_data" ++ b)) := by
  refine ⟨?_, ⟨_, rfl⟩, ⟨by simp [tombstoneFragments], by simp [tombstoneFragments]⟩, ?_, ?_, ?_⟩
  · intro enable
    cases enable <;> simp [selectQueryFragments]
  · intro r
    simp only [tombstoneBranchSelects, mainBranchSelects, Bool.and_eq_true,
      decide_eq_true_eq, beq_iff_eq, bne_iff_ne, ne_eq]
    tauto
  · intro r _ h1 h2
    have hb1 : minInt64 ≤ r.timestamp - 1 := by simp only [minInt64] at h1 ⊢; omega
    have hb2 : r.timestamp - 1 ≤ maxInt64 := by simp only [maxInt64] at h2 ⊢; omega
    simp only [tombstoneVersion, mainBranchVersion, wrapInt64_eq_self _ hb1 hb2]
    omega
  · intro column sel p pu hcp f hf
    rw [columnProjection] at hcp
    cases hrt : resolveClickHouseType toDWH tableMapping schemaNullable column with
    | error e =>
      rw [hrt] at hcp
      cases hcp
    | ok chType =>
      rw [hrt] at hcp
      simp only at hcp
      by_cases hd1 : chType = "Date32" ∨ chType = "Nullable(Date32)"
      · rw [if_pos hd1] at hcp
        simp only [Except.ok.injEq, Prod.mk.injEq, if_true] at hcp
        obtain ⟨-, -, hpu⟩ := hcp
        subst hpu
        simp only [List.mem_singleton] at hf
        subst hf
        exact split_around_of_eq "toDate32(parseDateTime64BestEffortOrNull(JSONExtractString("
          "_peerdb_match_data" ", '"
          "toDate32(parseDateTime64BestEffortOrNull(JSONExtractString(_peerdb_match_data, '"
          (EscapeStr column.name
            ++ ("'),6)) AS `" ++ (resolveDstColName tableMapping column.name ++ "`,")))
          _ rfl (by simp [String.append_assoc])
      · rw [if_neg hd1] at hcp
        by_cases hd2 : chType = "DateTime64(6)" ∨ chType = "Nullable(DateTime64(6))"
        · rw [if_pos hd2] at hcp
          simp only [Except.ok.injEq, Prod.mk.injEq, if_true] at hcp
          obtain ⟨-, -, hpu⟩ := hcp
          subst hpu
          simp only [List.mem_singleton] at hf
          subst hf
          exact split_around_of_eq "parseDateTime64BestEffortOrNull(JSONExtractString("
            "_peerdb_match_data" ", '"
            "parseDateTime64BestEffortOrNull(JSONExtractString(_peerdb_match_data, '"
            (EscapeStr column.name
              ++ ("'),6) AS `" ++ (resolveDstColName tableMapping column.name ++ "`,")))
            _ rfl (by simp [String.append_assoc])
        · rw [if_neg hd2] at hcp
          by_cases hby : column.type = QValueKindBytes
          · rw [if_pos hby] at hcp
            cases hbf : binaryFormat with
            | error e =>
              rw [hbf] at hcp
              cases hcp
            | ok fmt =>
              rw [hbf] at hcp
              cases fmt with
              | raw =>
                simp only [Except.ok.injEq, Prod.mk.injEq, if_true] at hcp
                obtain ⟨-, -, hpu⟩ := hcp
                subst hpu
                simp only [List.mem_singleton] at hf
                subst hf
                exact split_around_of_eq "base64Decode(JSONExtractString("
                  "_peerdb_match_data" ", '"
                  "base64Decode(JSONExtractString(_peerdb_match_data, '"
                  (EscapeStr column.name
                    ++ ("')) AS `" ++ (resolveDstColName tableMapping column.name ++ "`,")))
                  _ rfl (by simp [String.append_assoc])
              | hex =>
                simp only [Except.ok.injEq, Prod.mk.injEq, if_true] at hcp
                obtain ⟨-, -, hpu⟩ := hcp
                subst hpu
                simp only [List.mem_singleton] at hf
                subst hf
                exact split_around_of_eq "hex(base64Decode(JSONExtractString("
                  "_peerdb_match_data" ", '"
                  "hex(base64Decode(JSONExtractString(_peerdb_match_data, '"
                  (EscapeStr column.name
                    ++ ("'))) AS `" ++ (resolveDstColName tableMapping column.name ++ "`,")))
                  _ rfl (by simp [String.append_assoc])
          · rw [if_neg hby] at hcp
            simp only [Except.ok.injEq, Prod.mk.injEq, if_true] at hcp
            obtain ⟨-, -, hpu⟩ := hcp
            subst hpu
            simp only [List.mem_singleton] at hf
            subst hf
            exact split_around_of_eq "JSONExtract(" "_peerdb_match_data" ", '"
              "JSONExtract(_peerdb_match_data, '"
              (EscapeStr column.name
                ++ ("', '" ++ (chType
                  ++ ("') AS `" ++ (resolveDstColName tableMapping column.name ++ "`,")))))
              _ rfl (by simp [String.append_assoc])

theorem normalize_primary_update_tombstone_witness :
    tombstoneBranchSelects (fun s => s.length) 2 4 "t" 1 0 rowEx = true
    ∧ tombstoneVersion rowEx < mainBranchVersion rowEx
    ∧ (∃ tl, tombstoneFragments "_peerdb_raw_f" "t" 2 4 1 0 []
        = " UNION ALL SELECT " :: tl) := by
  have h := normalize_primary_update_tombstone (Except.ok BinaryFormat.raw)
    (fun _ _ => Except.ok "Int64") none false "_peerdb_raw_f" "t" 2 4 1 0 [] []
    (fun s => s.length) 1 0
  exact ⟨by decide, h.2.2.2.2.1 rowEx (by decide) (by decide) (by decide), h.2.1⟩


/-- C5 counterexample: for a column resolved to `DateTime64(6)` the generated
projection parses with scale literal 6 (microseconds), not the
millisecond-precision (scale 3) parse the claim states. -/
theorem normalize_timestamp_scale_counterexample :
    columnProjection (Except.ok BinaryFormat.raw) (fun _ _ => Except.ok "DateTime64(6)")
      none false false { name := "ts", type := "timestamp" }
      = Except.ok ("`ts`,",
          ["parseDateTime64BestEffortOrNull(JSONExtractString(_peerdb_data, 'ts'),6) AS `ts`,"],
          [])
    ∧ "parseDateTime64BestEffortOrNull(JSONExtractString(_peerdb_data, 'ts'),6) AS `ts`,"
        ≠ specMillisecondProjection "ts" "ts" := by
  constructor
  · rfl
  · decide


/-- C5 (amended): for every column whose resolved destination type is
`DateTime64(6)`, `Nullable(DateTime64(6))`, `Date32` or `Nullable(Date32)`,
the normalize projection parses the JSON value with
`parseDateTime64BestEffortOrNull` at scale 6 — microsecond, not millisecond,
precision — (wrapped in `toDate32` for the date forms), and the
best-effort-null semantics yields a value, never an error, so a malformed
timestamp becomes NULL and never fails the batch. -/
theorem normalize_timestamp_best_effort
    (binaryFormat : Except String BinaryFormat)
    (toDWH : FieldDescription → Bool → Except String String)
    (tableMapping : Option TableMapping) (schemaNullable : Bool)
    (enablePrimaryUpdate : Bool) (column : FieldDescription) (chType : String)
    (hrt : resolveClickHouseType toDWH tableMapping schemaNullable column
      = Except.ok chType) :
    (chType = "DateTime64(6)" ∨ chType = "Nullable(DateTime64(6))" →
      columnProjection binaryFormat toDWH tableMapping schemaNullable
          enablePrimaryUpdate column
        = Except.ok ("`" ++ resolveDstColName tableMapping column.name ++ "`,",
            ["parseDateTime64BestEffortOrNull(JSONExtractString(_peerdb_data, '"
               ++ EscapeStr column.name ++ "'),6) AS `"
               ++ resolveDstColName tableMapping column.name ++ "`,"],
            if enablePrimaryUpdate then
              ["parseDateTime64BestEffortOrNull(JSONExtractString(_peerdb_match_data, '"
                 ++ EscapeStr column.name ++ "'),6) AS `"
                 ++ resolveDstColName tableMapping column.name ++ "`,"]
            else []))
    ∧ (chType = "Date32" ∨ chType = "Nullable(Date32)" →
      columnProjection binaryFormat toDWH tableMapping schemaNullable
          enablePrimaryUpdate column
        = Except.ok ("`" ++ resolveDstColName tableMapping column.name ++ "`,",
            ["toDate32(parseDateTime64BestEffortOrNull(JSONExtractString(_peerdb_data, '"
               ++ EscapeStr column.name ++ "'),6)) AS `"
               ++ resolveDstColName tableMapping column.name ++ "`,"],
            if enablePrimaryUpdate then
              ["toDate32(parseDateTime64BestEffortOrNull(JSONExtractString(_peerdb_match_data, '"
                 ++ EscapeStr column.name ++ "'),6)) AS `"
                 ++ resolveDstColName tableMapping column.name ++ "`,"]
            else []))
    ∧ (∀ (parse : String → Nat → Option Int) (s : String) (scale : Nat),
        ∃ v, parseDateTime64BestEffortOrNullSem parse s scale = Except.ok v
          ∧ (parse s scale = none → v = none)) := by
  refine ⟨?_, ?_, fun parse s scale => ⟨parse s scale, rfl, fun h => h⟩⟩
  · intro hd
    have hnot : ¬(chType = "Date32" ∨ chType = "Nullable(Date32)") := by
      rcases hd with rfl | rfl <;> decide
    rw [columnProjection, hrt]
    simp only
    rw [if_neg hnot, if_pos hd]
  · intro hd
    rw [columnProjection, hrt]
    simp only
    rw [if_pos hd]

theorem normalize_timestamp_best_effort_witness :
    columnProjection (Except.ok BinaryFormat.raw) (fun _ _ => Except.ok "DateTime64(6)")
      none false true { name := "ts", type := "timestamp" }
      = Except.ok ("`ts`,",
          ["parseDateTime64BestEffortOrNull(JSONExtractString(_peerdb_data, 'ts'),6) AS `ts`,"],
          ["parseDateTime64BestEffortOrNull(JSONExtractString(_peerdb_match_data, 'ts'),6) AS `ts`,"]) := by
  have h := (normalize_timestamp_best_effort (Except.ok BinaryFormat.raw)
    (fun _ _ => Except.ok "DateTime64(6)") none false true
    { name := "ts", type := "timestamp" } "DateTime64(6)" rfl).1 (Or.inl rfl)
  simpa using h

/-- C7: when some mapped column has `Ordering > 0`, the ORDER BY / PRIMARY
KEY column list is those columns sorted stably by ascending `Ordering`
(renames applied, quoted); when none has, it is the renamed source primary
keys; and the DDL emits `PRIMARY KEY (…) ORDER BY (…)` when the list is
nonempty and falls back to `ORDER BY tuple()` when it is empty. -/
theorem getOrderedOrderByColumns_spec (tableMapping : Option TableMapping)
    (sourcePkeys : List String) (colNameMap : List (String × String)) :
    (∀ ob, (match tableMapping with
            | some tm => tm.columns.filter (fun col => 0 < col.ordering)
            | none => []) = ob → ob ≠ [] →
      getOrderedOrderByColumns tableMapping sourcePkeys colNameMap
        = (sortByOrdering ob).map
            (fun col => QuoteIdentifier (getColName colNameMap col.sourceName))
      ∧ (sortByOrdering ob).Perm ob
      ∧ (sortByOrdering ob).Pairwise (fun a b => a.ordering ≤ b.ordering))
    ∧ ((match tableMapping with
        | some tm => tm.columns.filter (fun col => 0 < col.ordering)
        | none => []) = [] →
      getOrderedOrderByColumns tableMapping sourcePkeys colNameMap
        = sourcePkeys.map (fun pk => QuoteIdentifier (getColName colNameMap pk)))
    ∧ (∀ (toDWH : FieldDescription → Bool → Except String String)
        (pn : Except String Bool) (config : SetupNormalizedTableBatchInput)
        (tid : String) (sch : TableSchema) (colFrags : List String)
        (cmap : List (String × String)) (frags : List String),
      ddlColumnLoop toDWH
          (config.tableMappings.find? (fun tm => tm.destinationTableIdentifier == tid))
          sch.nullableEnabled sch.columns = Except.ok (colFrags, cmap) →
      generateCreateTableSQLForNormalizedTable toDWH pn config tid sch
        = Except.ok frags →
      (getOrderedOrderByColumns
          (config.tableMappings.find? (fun tm => tm.destinationTableIdentifier == tid))
          sch.primaryKeyColumns cmap = [] → "ORDER BY tuple()" ∈ frags)
      ∧ (getOrderedOrderByColumns
          (config.tableMappings.find? (fun tm => tm.destinationTableIdentifier == tid))
          sch.primaryKeyColumns cmap ≠ [] → "PRIMARY KEY (" ∈ frags)) := by
  refine ⟨?_, ?_, ?_⟩
  · intro ob hob hne
    refine ⟨?_, sortByOrdering_perm ob, sortByOrdering_pairwise ob⟩
    cases ob with
    | nil => exact absurd rfl hne
    | cons c cs => simp [getOrderedOrderByColumns, hob]
  · intro hob
    simp only [getOrderedOrderByColumns, hob, List.isEmpty_nil, if_true]
    by_cases hc : 0 < sourcePkeys.length ∧ 0 < colNameMap.length
    · rw [if_pos hc]
    · rw [if_neg hc]
      rcases not_and_or.1 hc with hp | hm
      · have hnil : sourcePkeys = [] := by
          cases sourcePkeys with
          | nil => rfl
          | cons a l => exact absurd (by simp) hp
        subst hnil
        simp
      · have hnil : colNameMap = [] := by
          cases colNameMap with
          | nil => rfl
          | cons a l => exact absurd (by simp) hm
        subst hnil
        refine List.map_congr_left ?_
        intro pk _
        simp [getColName, List.lookup]
  · intro toDWH pn config tid sch colFrags cmap frags hddl hgen
    rw [generateCreateTableSQLForNormalizedTable] at hgen
    rw [hddl] at hgen
    cases hpn : pn with
    | error e =>
      rw [hpn] at hgen
      cases hgen
    | ok nl =>
      rw [hpn] at hgen
      simp only [Except.ok.injEq] at hgen
      subst hgen
      constructor
      · intro hempty
        simp [hempty]
      · intro hne
        have hlen : 0 < (getOrderedOrderByColumns
            (config.tableMappings.find? (fun tm => tm.destinationTableIdentifier == tid))
            sch.primaryKeyColumns cmap).length := List.length_pos.2 hne
        simp [hlen]


theorem getOrderedOrderByColumns_spec_witness :
    getOrderedOrderByColumns (some tmEx) ["pk"] [] = ["`a`", "`b`"]
    ∧ (sortByOrdering (tmEx.columns.filter (fun col => 0 < col.ordering))).Pairwise
        (fun a b => a.ordering ≤ b.ordering) := by
  have h := (getOrderedOrderByColumns_spec (some tmEx) ["pk"] []).1
    (tmEx.columns.filter (fun col => 0 < col.ordering)) rfl (by decide)
  refine ⟨?_, h.2.2⟩
  rw [h.1]
  decide

theorem generateCreateTableSQL_shape
    (toDWH : FieldDescription → Bool → Except String String)
    (pn : Except String Bool) (config : SetupNormalizedTableBatchInput)
    (tid : String) (sch : TableSchema) (frags : List String)
    (h : generateCreateTableSQLForNormalizedTable toDWH pn config tid sch
      = Except.ok frags) :
    ∃ rest, frags = ["CREATE "] ++ (if config.isResync then ["OR REPLACE "] else [])
      ++ ["TABLE "] ++ (if !config.isResync then ["IF NOT EXISTS "] else []) ++ rest := by
  rw [generateCreateTableSQLForNormalizedTable] at h
  cases hddl : ddlColumnLoop toDWH
      (config.tableMappings.find? (fun tm => tm.destinationTableIdentifier == tid))
      sch.nullableEnabled sch.columns with
  | error e =>
    rw [hddl] at h
    cases h
  | ok pr =>
    obtain ⟨colFrags, cmap⟩ := pr
    rw [hddl] at h
    cases hpn : pn with
    | error e =>
      rw [hpn] at h
      cases h
    | ok nl =>
      rw [hpn] at h
      simp only [Except.ok.injEq] at h
      subst h
      exact ⟨_, by simp; rfl⟩

/-- C8 counterexample: with the destination table already existing and
`is_resync = true`, `SetupNormalizedTable` executes the `CREATE OR REPLACE`
DDL and returns `already_existed = false`, refuting "returns `already_existed
= true` if and only if the destination table already exists". -/
theorem SetupNormalizedTable_counterexample :
    SetupNormalizedTable (Except.ok true) (fun _ _ => Except.ok "String")
      (Except.ok false) (fun _ => Except.ok ())
      { tableMappings := [], isResync := true, syncedAtColName := "" } "t"
      { columns := [], primaryKeyColumns := [], nullableEnabled := false }
      = Except.ok (false,
          ["CREATE OR REPLACE TABLE `t` (`_peerdb_is_deleted` Int8, `_peerdb_version` Int64) ENGINE = ReplacingMergeTree(`_peerdb_version`)ORDER BY tuple()"])
    ∧ ¬((false : Bool) = true ↔ (true : Bool) = true) := by
  constructor
  · rfl
  · decide

/-- C8 (amended): `SetupNormalizedTable` returns `already_existed = true` iff
the destination table already exists and `is_resync` is false; every DDL it
executes is `CREATE OR REPLACE TABLE …` when `is_resync` is true and
`CREATE TABLE IF NOT EXISTS …` otherwise, so repeated calls are idempotent. -/
theorem SetupNormalizedTable_existed_iff (chk : Except String Bool)
    (toDWH : FieldDescription → Bool → Except String String)
    (pn : Except String Bool) (execDDL : String → Except String Unit)
    (config : SetupNormalizedTableBatchInput) (tid : String) (sch : TableSchema)
    (b : Bool) (ddls : List String)
    (h : SetupNormalizedTable chk toDWH pn execDDL config tid sch
      = Except.ok (b, ddls)) :
    (b = true ↔ (chk = Except.ok true ∧ config.isResync = false))
    ∧ (∀ sql ∈ ddls, ∃ rest,
        sql = (if config.isResync then "CREATE OR REPLACE TABLE "
               else "CREATE TABLE IF NOT EXISTS ") ++ rest) := by
  unfold SetupNormalizedTable at h
  cases chk with
  | error e =>
    simp at h
  | ok ex =>
    simp only at h
    by_cases hcond : (ex && !config.isResync) = true
    · rw [if_pos hcond] at h
      simp only [Except.ok.injEq, Prod.mk.injEq] at h
      obtain ⟨hb, hd⟩ := h
      subst hb
      subst hd
      simp only [Bool.and_eq_true, Bool.not_eq_true'] at hcond
      constructor
      · constructor
        · intro _
          exact ⟨by rw [hcond.1], hcond.2⟩

        · intro _
          rfl
      · intro sql hsql
        cases hsql
    · rw [if_neg hcond] at h
      cases hgen : generateCreateTableSQLForNormalizedTable toDWH pn config tid sch with
      | error e =>
        rw [hgen] at h
        simp at h
      | ok frags =>
        rw [hgen] at h
        simp only at h
        cases hex : execDDL (String.join frags) with
        | error e =>
          rw [hex] at h
          simp at h
        | ok u =>
          rw [hex] at h
          simp only [Except.ok.injEq, Prod.mk.injEq] at h
          obtain ⟨hb, hd⟩ := h
          subst hb
          subst hd
          constructor
          · constructor
            · intro hfalse
              cases hfalse
            · intro ⟨hex2, hres⟩
              simp only [Except.ok.injEq] at hex2
              exact absurd (by simp [hex2, hres]) hcond
          · intro sql hsql
            simp only [List.mem_singleton] at hsql
            subst hsql
            obtain ⟨rest, hsh⟩ := generateCreateTableSQL_shape toDWH pn config tid sch
              frags hgen
            subst hsh
            cases hres : config.isResync with
            | true =>
              refine ⟨String.join rest, ?_⟩
              simp [hres]
              rw [strJoinCons, strJoinCons, strJoinCons, ← String.append_assoc,
                ← String.append_assoc]
              rfl
            | false =>
              refine ⟨String.join rest, ?_⟩
              simp [hres]
              rw [strJoinCons, strJoinCons, strJoinCons, ← String.append_assoc,
                ← String.append_assoc]
              rfl

theorem SetupNormalizedTable_existed_iff_witness :
    ∃ rest,
      "CREATE OR REPLACE TABLE `t` (`_peerdb_is_deleted` Int8, `_peerdb_version` Int64) ENGINE = ReplacingMergeTree(`_peerdb_version`)ORDER BY tuple()"
        = "CREATE OR REPLACE TABLE " ++ rest := by
  have h := SetupNormalizedTable_existed_iff (Except.ok true)
    (fun _ _ => Except.ok "String") (Except.ok false) (fun _ => Except.ok ())
    { tableMappings := [], isResync := true, syncedAtColName := "" } "t"
    { columns := [], primaryKeyColumns := [], nullableEnabled := false } false
    ["CREATE OR REPLACE TABLE `t` (`_peerdb_is_deleted` Int8, `_peerdb_version` Int64) ENGINE = ReplacingMergeTree(`_peerdb_version`)ORDER BY tuple()"]
    (by rfl)
  exact h.2 _ (by simp)
